import Mathlib

/-!
Verification development for the anypoint-automation-utils repository.

The embedding covers the two core components of src/anypointClient.js:

* the pattern matcher `buildAppNameFilter`, including a model of the
  JavaScript RegExp subset the patterns exercise (literals, escapes,
  the dot, character classes, alternation, grouping, the quantifiers
  star / plus / question, and the anchors caret and dollar), with
  `RegExp.prototype.test` semantics (unanchored search); and
* the batch orchestrators `jobs.startMatching` / `jobs.stopMatching`,
  with the CLI transport abstracted as an injected executor and the
  run instrumented to record how often the inventory was fetched and
  which application ids were dispatched, in dispatch order.

Machine strings are `List Char` / `String`; fallible JavaScript code
(RegExp construction, CLI calls) is modelled with `Except`.
-/

namespace Anypoint

/-! ## Regular expression model (subset of the JavaScript RegExp grammar) -/

/-- Items of a character class `[...]`. -/
inductive CItem where
  | single (c : Char)
  | range (lo hi : Char)
  | digit
  | word
  | space
  deriving DecidableEq, Repr

/-- Abstract syntax of the modelled RegExp subset.  `lit` is a literal
character, `anyChar` the dot, `cls` a (possibly negated) character class,
`anchorA` the caret assertion and `anchorZ` the dollar assertion. -/
inductive Regex where
  | epsilon
  | lit (c : Char)
  | anyChar
  | cls (neg : Bool) (items : List CItem)
  | anchorA
  | anchorZ
  | concat (r1 r2 : Regex)
  | alt (r1 r2 : Regex)
  | star (r : Regex)
  deriving DecidableEq, Repr

/-- JavaScript line terminators, which the dot does not match. -/
def isLineTerm (c : Char) : Bool :=
  c = '\n' || c = '\r' || c = ' ' || c = ' '

def isDigitCh (c : Char) : Bool := '0' ≤ c && c ≤ '9'

def isWordCh (c : Char) : Bool :=
  ('a' ≤ c && c ≤ 'z') || ('A' ≤ c && c ≤ 'Z') || isDigitCh c || c = '_'

def isSpaceCh (c : Char) : Bool :=
  c = ' ' || c = '\t' || c = '\n' || c = '\r' || c = '\u000b' || c = '\u000c'

def citemMatch (c : Char) : CItem → Bool
  | .single d => c = d
  | .range lo hi => lo ≤ c && c ≤ hi
  | .digit => isDigitCh c
  | .word => isWordCh c
  | .space => isSpaceCh c

def classMatch (neg : Bool) (items : List CItem) (c : Char) : Bool :=
  xor neg (items.any (citemMatch c))

/-- One layer of the matcher.  `acceptsStep self r full i j` decides whether
`r` matches the span `[i, j)` of `full`, recursing structurally on `r` and
delegating iterations of a star (which always consume at least one
character, so that the language is unchanged) to `self`.  Anchors inspect
the absolute position, which is why spans rather than substrings are
matched. -/
def acceptsStep (self : Regex → List Char → Nat → Nat → Bool) :
    Regex → List Char → Nat → Nat → Bool
  | .epsilon, _, i, j => j = i
  | .lit c, full, i, j => j = i + 1 && full.get? i = some c
  | .anyChar, full, i, j =>
      j = i + 1 && (full.get? i).any (fun d => !isLineTerm d)
  | .cls neg items, full, i, j =>
      j = i + 1 && (full.get? i).any (classMatch neg items)
  | .anchorA, _, i, j => j = i && i = 0
  | .anchorZ, full, i, j => j = i && i = full.length
  | .concat r1 r2, full, i, j =>
      (List.range (j + 1)).any fun k =>
        i ≤ k && k ≤ j && acceptsStep self r1 full i k &&
          acceptsStep self r2 full k j
  | .alt r1 r2, full, i, j =>
      acceptsStep self r1 full i j || acceptsStep self r2 full i j
  | .star r1, full, i, j =>
      j = i ||
        (List.range (j + 1)).any fun k =>
          i < k && k ≤ j && acceptsStep self r1 full i k &&
            self (.star r1) full k j

/-- Fuel-indexed matcher.  One unit of fuel is spent per star iteration;
each iteration consumes at least one character, so fuel
`full.length + 1` is always sufficient. -/
def acceptsF : Nat → Regex → List Char → Nat → Nat → Bool
  | 0, _, _, _, _ => false
  | fuel + 1, r, full, i, j => acceptsStep (acceptsF fuel) r full i j

/-- Semantics of `RegExp.prototype.test`: unanchored search, true iff some
span of the subject matches. -/
def rtest (r : Regex) (s : List Char) : Bool :=
  let n := s.length
  (List.range (n + 1)).any fun i =>
    (List.range (n + 1)).any fun j =>
      i ≤ j && acceptsF (n + 1) r s i j

/-! ## Parser for the modelled RegExp subset

Recursive descent with explicit fuel (spent on every call, so plain
structural recursion suffices); `parseRegex` supplies fuel that is
generous for any input length.  Constructs outside the modelled subset
(lookarounds, word-boundary assertions, backreferences, hex and unicode
escapes) are rejected, a documented restriction of the model. -/

/-- Fold a sequence of terms into nested concatenations. -/
def mkSeq : List Regex → Regex
  | [] => .epsilon
  | [r] => r
  | r :: rest => .concat r (mkSeq rest)

/-- Atom produced for a top-level escape `\c`. -/
def escAtom (c : Char) : Except String Regex :=
  if c = 'd' then .ok (.cls false [.digit])
  else if c = 'D' then .ok (.cls true [.digit])
  else if c = 'w' then .ok (.cls false [.word])
  else if c = 'W' then .ok (.cls true [.word])
  else if c = 's' then .ok (.cls false [.space])
  else if c = 'S' then .ok (.cls true [.space])
  else if c = 'n' then .ok (.lit '\n')
  else if c = 't' then .ok (.lit '\t')
  else if c = 'r' then .ok (.lit '\r')
  else if c = 'f' then .ok (.lit '\u000c')
  else if c = 'v' then .ok (.lit '\u000b')
  else if c = '0' then .ok (.lit '\u0000')
  else if c = 'b' || c = 'B' then .error "unsupported assertion escape"
  else if isDigitCh c then .error "unsupported backreference"
  else if c = 'u' || c = 'x' || c = 'c' || c = 'k' || c = 'p' || c = 'P' then
    .error "unsupported escape"
  else .ok (.lit c)

/-- Class item produced for an escape inside a character class. -/
def citemEsc (c : Char) : Except String CItem :=
  if c = 'd' then .ok .digit
  else if c = 'w' then .ok .word
  else if c = 's' then .ok .space
  else if c = 'D' || c = 'W' || c = 'S' then .error "unsupported class escape"
  else if c = 'n' then .ok (.single '\n')
  else if c = 't' then .ok (.single '\t')
  else if c = 'r' then .ok (.single '\r')
  else .ok (.single c)

/-- After a quantifier, JavaScript allows a lazy modifier, which does not
change the matched language. -/
def eatLazy : List Char → List Char
  | '?' :: rest => rest
  | cs => cs

/-- Parse the items of a character class up to the closing bracket. -/
def pClassItems : Nat → List CItem → List Char →
    Except String (List CItem × List Char)
  | 0, _, _ => .error "pattern too complex"
  | _ + 1, _, [] => .error "Unterminated character class"
  | _ + 1, acc, ']' :: rest => .ok (acc.reverse, rest)
  | fuel + 1, acc, '\\' :: cs => match cs with
    | [] => .error "trailing backslash in class"
    | c :: rest => do
        let it ← citemEsc c
        pClassItems fuel (it :: acc) rest
  | fuel + 1, acc, a :: '-' :: b :: rest =>
      if b = ']' then
        pClassItems fuel (.single '-' :: .single a :: acc) (b :: rest)
      else
        pClassItems fuel (.range a b :: acc) rest
  | fuel + 1, acc, a :: rest => pClassItems fuel (.single a :: acc) rest

mutual

/-- Parse an alternation (lowest precedence). -/
def pAlt : Nat → List Char → Except String (Regex × List Char)
  | 0, _ => .error "pattern too complex"
  | fuel + 1, cs => do
      let (r, rest) ← pSeq fuel cs
      pAltLoop fuel r rest

def pAltLoop : Nat → Regex → List Char → Except String (Regex × List Char)
  | 0, _, _ => .error "pattern too complex"
  | fuel + 1, acc, cs => match cs with
    | '|' :: rest => do
        let (r, rest2) ← pSeq fuel rest
        pAltLoop fuel (.alt acc r) rest2
    | _ => .ok (acc, cs)

/-- Parse a sequence of terms, stopping at a bar, a closing parenthesis or
the end of the input. -/
def pSeq : Nat → List Char → Except String (Regex × List Char)
  | 0, _ => .error "pattern too complex"
  | fuel + 1, cs => pSeqLoop fuel [] cs

def pSeqLoop : Nat → List Regex → List Char →
    Except String (Regex × List Char)
  | 0, _, _ => .error "pattern too complex"
  | fuel + 1, acc, cs => match cs with
    | [] => .ok (mkSeq acc.reverse, [])
    | ')' :: rest => .ok (mkSeq acc.reverse, ')' :: rest)
    | '|' :: rest => .ok (mkSeq acc.reverse, '|' :: rest)
    | _ => do
        let (t, rest) ← pTerm fuel cs
        pSeqLoop fuel (t :: acc) rest

/-- Parse one term: an atom with an optional quantifier.  A quantifier
directly after an anchor assertion is rejected, as in the strict RegExp
grammar. -/
def pTerm : Nat → List Char → Except String (Regex × List Char)
  | 0, _ => .error "pattern too complex"
  | fuel + 1, cs => do
      let (a, isAssert, rest) ← pAtom fuel cs
      match rest with
      | '*' :: rest2 =>
          if isAssert then .error "Nothing to repeat"
          else .ok (.star a, eatLazy rest2)
      | '+' :: rest2 =>
          if isAssert then .error "Nothing to repeat"
          else .ok (.concat a (.star a), eatLazy rest2)
      | '?' :: rest2 =>
          if isAssert then .error "Nothing to repeat"
          else .ok (.alt a .epsilon, eatLazy rest2)
      | _ => .ok (a, rest)

/-- Parse one atom, also reporting whether it is an anchor assertion. -/
def pAtom : Nat → List Char → Except String (Regex × Bool × List Char)
  | 0, _ => .error "pattern too complex"
  | fuel + 1, cs => match cs with
    | [] => .error "unexpected end of pattern"
    | '(' :: rest => do
        let body ← match rest with
          | '?' :: ':' :: rest2 => pure rest2
          | '?' :: _ => .error "unsupported group modifier"
          | _ => pure rest
        let (r, rest2) ← pAlt fuel body
        match rest2 with
        | ')' :: rest3 => .ok (r, false, rest3)
        | _ => .error "Unterminated group"
    | ')' :: _ => .error "Unmatched close parenthesis"
    | '[' :: rest =>
        let (neg, rest1) := match rest with
          | '^' :: r => (true, r)
          | _ => (false, rest)
        do
          let (items, rest2) ← pClassItems (fuel + 1) [] rest1
          .ok (.cls neg items, false, rest2)
    | '\\' :: [] => .error "pattern may not end with a trailing backslash"
    | '\\' :: c :: rest => do
        let a ← escAtom c
        .ok (a, false, rest)
    | '.' :: rest => .ok (.anyChar, false, rest)
    | '^' :: rest => .ok (.anchorA, true, rest)
    | '$' :: rest => .ok (.anchorZ, true, rest)
    | '*' :: _ => .error "Nothing to repeat"
    | '+' :: _ => .error "Nothing to repeat"
    | '?' :: _ => .error "Nothing to repeat"
    | c :: rest => .ok (.lit c, false, rest)

end

/-- Model of `new RegExp(source)`: parse the whole source or fail, as the
JavaScript constructor throws a SyntaxError. -/
def parseRegex (cs : List Char) : Except String Regex := do
  let (r, rest) ← pAlt (4 * cs.length + 16) cs
  match rest with
  | [] => .ok r
  | _ => .error "Unmatched close parenthesis"

/-! ## Application records and the pattern matcher -/

/-- An inventory record as consumed by the matcher and the orchestrator.
Only the fields the source reads are modelled; a missing field is `none`. -/
structure App where
  id : Option String
  name : Option String
  applicationName : Option String
  deriving DecidableEq, Repr

/-- JavaScript `x || y` for an optional string `x`: the empty string is
falsy, so it also falls through to `y`. -/
def firstTruthy (x : Option String) (y : String) : String :=
  match x with
  | some s => if s = "" then y else s
  | none => y

/-- Name resolution performed by the compiled matcher in the source:
`app.name || app.applicationName || ""`. -/
def resolveNameCode (a : App) : String :=
  firstTruthy a.name (firstTruthy a.applicationName "")

/-- Name resolution as the specification words it (`name`, falling back to
`id`, falling back to the empty string); kept for comparison with
`resolveNameCode`. -/
def resolveNameSpec (a : App) : String :=
  firstTruthy a.name (firstTruthy a.id "")

/-- The character set of the `looksLikeRegex` test in the source. -/
def regexLikeChars : List Char :=
  ['^', '$', '|', '+', '?', '(', ')', '[', ']', '\\']

def looksLikeRegex (p : String) : Bool :=
  p.data.any (fun c => regexLikeChars.contains c)

/-- The character class of the escaping replace in the source; note that
the star is absent. -/
def escapeSetChars : List Char :=
  ['-', '/', '\\', '^', '$', '+', '?', '.', '(', ')', '|', '[', ']', '{', '}']

/-- The replace that prefixes a backslash to every matched character. -/
def escapeRegexChars (cs : List Char) : List Char :=
  cs.flatMap (fun c => if escapeSetChars.contains c then ['\\', c] else [c])

/-- Global left-to-right, non-overlapping replace of the two-character
sequence `a b` by `repl`, as JavaScript string replace performs it. -/
def replacePair (a b : Char) (repl : List Char) : List Char → List Char
  | [] => []
  | [x] => [x]
  | x :: y :: rest =>
      if x = a && y = b then repl ++ replacePair a b repl rest
      else x :: replacePair a b repl (y :: rest)

/-- Source of the regular expression built on the glob path: escape, then
replace backslash-star by dot-star and backslash-question by dot, then
anchor with a caret and a dollar. -/
def globSource (p : String) : List Char :=
  '^' :: (replacePair '\\' '?' ['.']
    (replacePair '\\' '*' ['.', '*'] (escapeRegexChars p.data))) ++ ['$']

/-- Embedding of `buildAppNameFilter`.  A falsy pattern yields the constant
true filter; a regex-like pattern is compiled as written; any other
pattern goes through the glob pipeline.  A compilation failure is the
thrown SyntaxError of the RegExp constructor. -/
def buildAppNameFilter (pattern : Option String) :
    Except String (App → Bool) :=
  match pattern with
  | none => .ok (fun _ => true)
  | some p =>
      if p = "" then .ok (fun _ => true)
      else
        let src := if looksLikeRegex p then p.data else globSource p
        (parseRegex src).map (fun r =>
          fun app => rtest r (resolveNameCode app).data)

/-- Matcher built from the specification's name-resolution chain instead of
the source's; used only to compare the source against the
specification. -/
def buildAppNameFilterSpec (pattern : Option String) :
    Except String (App → Bool) :=
  match pattern with
  | none => .ok (fun _ => true)
  | some p =>
      if p = "" then .ok (fun _ => true)
      else
        let src := if looksLikeRegex p then p.data else globSource p
        (parseRegex src).map (fun r =>
          fun app => rtest r (resolveNameSpec app).data)

/-- Run the compiled matcher on one record; the observable result of the
compile-then-test pipeline, convenient for concrete evaluation. -/
def testPattern (pattern : Option String) (app : App) : Except String Bool :=
  (buildAppNameFilter pattern).map (fun m => m app)

def testPatternSpec (pattern : Option String) (app : App) :
    Except String Bool :=
  (buildAppNameFilterSpec pattern).map (fun m => m app)

/-- Whether matcher compilation fails for this pattern. -/
def compileFails (pattern : Option String) : Bool :=
  match buildAppNameFilter pattern with
  | .error _ => true
  | .ok _ => false

/-! ## Batch orchestrator

`jobs.startMatching` and `jobs.stopMatching` are textually identical apart
from the CLI command they dispatch, so both are instances of one core,
`runMatching`, parameterised by the fetch result and the per-id lifecycle
operation.  The CLI transport (`runCli`, `cloudhub2`) is abstracted as an
injected executor, as every remote call is opaque to the orchestration
logic; a run is instrumented with the number of inventory fetches and the
dispatch-ordered list of ids handed to the lifecycle operation.
`Promise.all` resolves with results in the order the tasks were pushed,
which is the candidate order, so the settled results are modelled as a map
over the candidates in inventory order. -/

/-- Value returned by the inventory fetch after JSON parsing: either an
array, or an object whose `items` or `data` field may hold the list
(a present array field is always truthy, even when empty), or anything
else, from which the source extracts the empty list. -/
inductive Inventory where
  | arr (apps : List App)
  | obj (items : Option (List App)) (data : Option (List App))
  deriving DecidableEq, Repr

/-- The `Array.isArray(apps) ? apps : apps.items || apps.data || []`
extraction. -/
def Inventory.toList : Inventory → List App
  | .arr l => l
  | .obj items dat =>
      match items with
      | some l => l
      | none =>
          match dat with
          | some l => l
          | none => []

/-- Outcome status strings used by the source. -/
inductive Status where
  | fulfilled
  | rejected
  deriving DecidableEq, Repr

/-- One settled lifecycle command, as pushed into the results array. -/
structure Outcome where
  id : String
  name : String
  status : Status
  reason : Option String
  deriving DecidableEq, Repr

/-- The summary object returned by a completed run. -/
structure Summary where
  total : Nat
  matched : Nat
  successes : List Outcome
  failures : List Outcome
  deriving DecidableEq, Repr

/-- External executor collaborator: the inventory fetch and the two
per-id lifecycle commands, each an opaque fallible call. -/
structure Executor where
  listApplications : Except String Inventory
  startAppById : String → Except String String
  stopAppById : String → Except String String

/-- Observable result of one orchestration run: how often the inventory
was fetched, which ids were dispatched in order, and the returned summary
or the propagated error. -/
structure RunResult where
  fetchCalls : Nat
  dispatched : List String
  result : Except String Summary
  deriving Repr

/-- JavaScript truthiness of the `id` field at the `if (!id) continue`
guard. -/
def truthyId (a : App) : Option String :=
  match a.id with
  | some s => if s = "" then none else some s
  | none => none

/-- The candidate selection loop: keep a record when its id is truthy and
the filter accepts it, pairing it with that id, in inventory order. -/
def candidates (filterFn : App → Bool) (list : List App) :
    List (App × String) :=
  list.filterMap fun app =>
    match truthyId app with
    | some id => if filterFn app then some (app, id) else none
    | none => none

/-- One dispatched task: run the lifecycle operation for the candidate's
id and convert the settled promise into an outcome, never letting the
failure escape. -/
def dispatchOutcome (op : String → Except String String) (app : App)
    (id : String) : Outcome :=
  let name := firstTruthy app.name (firstTruthy app.applicationName id)
  match op id with
  | .ok _ => ⟨id, name, .fulfilled, none⟩
  | .error e => ⟨id, name, .rejected, some e⟩

/-- The settled results array of one run: one outcome per candidate, in
candidate order, as `Promise.all` resolves with results in the order the
tasks were pushed. -/
def runOutcomes (op : String → Except String String) (filterFn : App → Bool)
    (list : List App) : List Outcome :=
  (candidates filterFn list).map fun c => dispatchOutcome op c.1 c.2

/-- Core of `startMatching` / `stopMatching`: fetch, extract the list,
compile the matcher, select candidates, dispatch every candidate, await
all results and fold them into the summary. -/
def runMatching (fetch : Except String Inventory)
    (op : String → Except String String) (pattern : Option String) :
    RunResult :=
  match fetch with
  | .error e => ⟨1, [], .error e⟩
  | .ok inv =>
      let list := inv.toList
      match buildAppNameFilter pattern with
      | .error e => ⟨1, [], .error e⟩
      | .ok filterFn =>
          let results := runOutcomes op filterFn list
          ⟨1, (candidates filterFn list).map (fun c => c.2),
            .ok
              { total := list.length
                matched := results.length
                successes := results.filter fun r => r.status = .fulfilled
                failures := results.filter fun r => r.status = .rejected }⟩

/-- Embedding of `jobs.startMatching`. -/
def startMatching (exec : Executor) (pattern : Option String) : RunResult :=
  runMatching exec.listApplications exec.startAppById pattern

/-- Embedding of `jobs.stopMatching`. -/
def stopMatching (exec : Executor) (pattern : Option String) : RunResult :=
  runMatching exec.listApplications exec.stopAppById pattern

/-! ## Concrete fixtures used by counterexamples and witnesses -/

/-- The parse of the raw regular expression in the specification's
example, the pattern dot-star-dash-p-r-o-d-dollar. -/
def prodRegex : Regex :=
  .concat (.star .anyChar)
    (.concat (.lit '-') (.concat (.lit 'p') (.concat (.lit 'r')
      (.concat (.lit 'o') (.concat (.lit 'd') .anchorZ)))))

/-- JavaScript truthiness of the `name` field, mirroring `truthyId`. -/
def truthyName (a : App) : Option String :=
  match a.name with
  | some s => if s = "" then none else some s
  | none => none

/-- Modelled from the spec: a record is unusable exactly when it lacks
both `id` and `name` (the invariant of the specification's data model,
used only to compare the source against the specification). -/
def unusableSpec (a : App) : Bool :=
  (truthyId a).isNone && (truthyName a).isNone

/-- An executor whose inventory fetch fails. -/
def execFetchFail : Executor :=
  ⟨.error "auth", fun _ => .ok "", fun _ => .ok ""⟩

/-- An executor with an empty but successful inventory. -/
def execEmptyOk : Executor :=
  ⟨.ok (.arr []), fun _ => .ok "", fun _ => .ok ""⟩

/-- Five well-formed records with ids and names a through e. -/
def appsC6 : List App :=
  [⟨some "a", some "a", none⟩, ⟨some "b", some "b", none⟩,
   ⟨some "c", some "c", none⟩, ⟨some "d", some "d", none⟩,
   ⟨some "e", some "e", none⟩]

/-- Lifecycle operation failing exactly for ids b and d. -/
def opBD : String → Except String String :=
  fun id => if id = "b" || id = "d" then .error "command failed" else .ok ""

/-- Executor over the five records whose lifecycle commands fail for
ids b and d. -/
def execBD : Executor := ⟨.ok (.arr appsC6), opBD, opBD⟩

/-- The summary the run over `execBD` with no pattern produces. -/
def summaryBD : Summary :=
  ⟨5, 5,
   [⟨"a", "a", .fulfilled, none⟩, ⟨"c", "c", .fulfilled, none⟩,
    ⟨"e", "e", .fulfilled, none⟩],
   [⟨"b", "b", .rejected, some "command failed"⟩,
    ⟨"d", "d", .rejected, some "command failed"⟩]⟩

/-- Executor sharing the inventory of `execBD` but with lifecycle
commands that always succeed. -/
def execAllOk : Executor :=
  ⟨.ok (.arr appsC6), fun _ => .ok "", fun _ => .ok ""⟩

/-- A one-record inventory whose record has a name but no id. -/
def appsNoId : List App := [⟨none, some "a", none⟩]

/-- Executor over the one-record no-id inventory. -/
def execNoId : Executor :=
  ⟨.ok (.arr appsNoId), fun _ => .ok "", fun _ => .ok ""⟩

/-- A record carrying only an id; under the specification's resolution
chain its display name would be that id, under the source's it is the
empty string. -/
def appIdOnly : App := ⟨some "app1", none, none⟩

/-- The compiled regular expression of the glob pattern x, namely
caret-x-dollar. -/
def regexX : Regex := .concat .anchorA (.concat (.lit 'x') .anchorZ)

/-- The matcher the source builds for the glob pattern x. -/
def matcherX : App → Bool :=
  fun app => rtest regexX (resolveNameCode app).data

/-! ## Matcher lemmas -/

theorem acceptsStep_concat_iff {self : Regex → List Char → Nat → Nat → Bool}
    {r1 r2 : Regex} {full : List Char} {i j : Nat} :
    acceptsStep self (.concat r1 r2) full i j = true ↔
      ∃ k, i ≤ k ∧ k ≤ j ∧ acceptsStep self r1 full i k = true ∧
        acceptsStep self r2 full k j = true := by
  simp only [acceptsStep, List.any_eq_true, List.mem_range, Bool.and_eq_true,
    decide_eq_true_eq]
  constructor
  · rintro ⟨k, -, ⟨⟨h1, h2⟩, h3⟩, h4⟩
    exact ⟨k, h1, h2, h3, h4⟩
  · rintro ⟨k, h1, h2, h3, h4⟩
    exact ⟨k, by omega, ⟨⟨h1, h2⟩, h3⟩, h4⟩

theorem acceptsStep_lit_iff {self : Regex → List Char → Nat → Nat → Bool}
    {c : Char} {full : List Char} {i j : Nat} :
    acceptsStep self (.lit c) full i j = true ↔
      j = i + 1 ∧ full.get? i = some c := by
  simp [acceptsStep]

theorem acceptsStep_anchorZ_iff {self : Regex → List Char → Nat → Nat → Bool}
    {full : List Char} {i j : Nat} :
    acceptsStep self .anchorZ full i j = true ↔ j = i ∧ i = full.length := by
  simp [acceptsStep]

theorem acceptsStep_star_refl (self : Regex → List Char → Nat → Nat → Bool)
    (r : Regex) (full : List Char) (i : Nat) :
    acceptsStep self (.star r) full i i = true := by
  simp [acceptsStep]

theorem acceptsF_succ (fuel : Nat) (r : Regex) (full : List Char)
    (i j : Nat) : acceptsF (fuel + 1) r full i j =
      acceptsStep (acceptsF fuel) r full i j := rfl

theorem rtest_iff {r : Regex} {s : List Char} :
    rtest r s = true ↔ ∃ i j, i ≤ j ∧ j ≤ s.length ∧
      acceptsF (s.length + 1) r s i j = true := by
  simp only [rtest, List.any_eq_true, List.mem_range, Bool.and_eq_true,
    decide_eq_true_eq]
  constructor
  · rintro ⟨i, -, j, hj, hij, h⟩
    exact ⟨i, j, hij, by omega, h⟩
  · rintro ⟨i, j, hij, hj, h⟩
    exact ⟨i, by omega, j, by omega, hij, h⟩

/-- A list whose five cells behind position `i` are known and reach the
end is exactly the five-character suffix. -/
theorem drop_eq_prod_of_get? {s : List Char} {i : Nat}
    (hlen : i + 5 = s.length)
    (h0 : s.get? i = some '-') (h1 : s.get? (i + 1) = some 'p')
    (h2 : s.get? (i + 2) = some 'r') (h3 : s.get? (i + 3) = some 'o')
    (h4 : s.get? (i + 4) = some 'd') :
    s.drop i = ['-', 'p', 'r', 'o', 'd'] := by
  apply List.ext_get?
  intro n
  have hd : ∀ m : Nat, (s.drop i).get? m = s.get? (i + m) := by
    intro m
    simp [List.get?_eq_getElem?, List.getElem?_drop]
  match n with
  | 0 => simpa using (hd 0).trans (by simpa using h0)
  | 1 => exact (hd 1).trans h1
  | 2 => exact (hd 2).trans h2
  | 3 => exact (hd 3).trans h3
  | 4 => exact (hd 4).trans h4
  | m + 5 =>
      rw [hd (m + 5)]
      have : s.get? (i + (m + 5)) = none := List.get?_eq_none.mpr (by omega)
      rw [this]
      rfl

/-- Characterisation of the specification's example: the unanchored test
of the dot-star-dash-prod-dollar expression holds exactly on subjects
ending in the five characters dash-p-r-o-d. -/
theorem rtest_prodRegex (s : List Char) :
    rtest prodRegex s = true ↔ ['-', 'p', 'r', 'o', 'd'] <:+ s := by
  constructor
  · intro h
    obtain ⟨i, j, hij, hj, h⟩ := rtest_iff.mp h
    rw [acceptsF_succ] at h
    obtain ⟨k0, hik0, hk0j, -, h⟩ := acceptsStep_concat_iff.mp h
    obtain ⟨k1, hk01, hk1j, hl0, h⟩ := acceptsStep_concat_iff.mp h
    obtain ⟨hk1, hg0⟩ := acceptsStep_lit_iff.mp hl0
    obtain ⟨k2, hk12, hk2j, hl1, h⟩ := acceptsStep_concat_iff.mp h
    obtain ⟨hk2, hg1⟩ := acceptsStep_lit_iff.mp hl1
    obtain ⟨k3, hk23, hk3j, hl2, h⟩ := acceptsStep_concat_iff.mp h
    obtain ⟨hk3, hg2⟩ := acceptsStep_lit_iff.mp hl2
    obtain ⟨k4, hk34, hk4j, hl3, h⟩ := acceptsStep_concat_iff.mp h
    obtain ⟨hk4, hg3⟩ := acceptsStep_lit_iff.mp hl3
    obtain ⟨k5, hk45, hk5j, hl4, h⟩ := acceptsStep_concat_iff.mp h
    obtain ⟨hk5, hg4⟩ := acceptsStep_lit_iff.mp hl4
    obtain ⟨hjk5, hend⟩ := acceptsStep_anchorZ_iff.mp h
    have hlen : k0 + 5 = s.length := by omega
    have hdrop : s.drop k0 = ['-', 'p', 'r', 'o', 'd'] :=
      drop_eq_prod_of_get? hlen hg0 (by rw [← hk1]; exact hg1)
        (by rw [show k0 + 2 = k2 by omega]; exact hg2)
        (by rw [show k0 + 3 = k3 by omega]; exact hg3)
        (by rw [show k0 + 4 = k4 by omega]; exact hg4)
    rw [← hdrop]
    exact List.drop_suffix k0 s
  · rintro ⟨t, rfl⟩
    have hlen : (t ++ ['-', 'p', 'r', 'o', 'd']).length = t.length + 5 := by
      simp
    have hget : ∀ m : Nat, m < 5 →
        (t ++ ['-', 'p', 'r', 'o', 'd']).get? (t.length + m) =
          ['-', 'p', 'r', 'o', 'd'].get? m := by
      intro m _
      rw [List.get?_append_right (by omega)]
      congr 1
      omega
    apply rtest_iff.mpr
    refine ⟨t.length, t.length + 5, by omega, by omega, ?_⟩
    rw [hlen, acceptsF_succ]
    apply acceptsStep_concat_iff.mpr
    refine ⟨t.length, le_refl _, by omega, acceptsStep_star_refl _ _ _ _, ?_⟩
    apply acceptsStep_concat_iff.mpr
    refine ⟨t.length + 1, by omega, by omega,
      acceptsStep_lit_iff.mpr ⟨rfl, by simpa using hget 0 (by omega)⟩, ?_⟩
    apply acceptsStep_concat_iff.mpr
    refine ⟨t.length + 2, by omega, by omega,
      acceptsStep_lit_iff.mpr ⟨rfl, by simpa using hget 1 (by omega)⟩, ?_⟩
    apply acceptsStep_concat_iff.mpr
    refine ⟨t.length + 3, by omega, by omega,
      acceptsStep_lit_iff.mpr ⟨rfl, by simpa using hget 2 (by omega)⟩, ?_⟩
    apply acceptsStep_concat_iff.mpr
    refine ⟨t.length + 4, by omega, by omega,
      acceptsStep_lit_iff.mpr ⟨rfl, by simpa using hget 3 (by omega)⟩, ?_⟩
    apply acceptsStep_concat_iff.mpr
    refine ⟨t.length + 5, by omega, by omega,
      acceptsStep_lit_iff.mpr ⟨rfl, by simpa using hget 4 (by omega)⟩, ?_⟩
    exact acceptsStep_anchorZ_iff.mpr ⟨rfl, by omega⟩

/-! ## Orchestrator lemmas -/

theorem dispatchOutcome_id (op : String → Except String String) (a : App)
    (id : String) : (dispatchOutcome op a id).id = id := by
  unfold dispatchOutcome
  cases op id <;> rfl

theorem length_filter_status (l : List Outcome) :
    (l.filter fun r => r.status = Status.fulfilled).length +
      (l.filter fun r => r.status = Status.rejected).length = l.length := by
  induction l with
  | nil => rfl
  | cons a t ih =>
      cases ha : a.status <;> simp [List.filter_cons, ha] <;> omega

/-- Inversion for a run whose result is a summary: the fetch and the
compilation succeeded, and the summary is the fold of the dispatch-order
outcomes. -/
theorem runMatching_result_ok {fetch : Except String Inventory}
    {op : String → Except String String} {pattern : Option String}
    {s : Summary} (h : (runMatching fetch op pattern).result = .ok s) :
    ∃ inv filterFn,
      fetch = .ok inv ∧ buildAppNameFilter pattern = .ok filterFn ∧
      (runMatching fetch op pattern).dispatched =
        (candidates filterFn inv.toList).map (fun c => c.2) ∧
      s = { total := inv.toList.length
            matched := (runOutcomes op filterFn inv.toList).length
            successes := (runOutcomes op filterFn inv.toList).filter
              fun r => r.status = .fulfilled
            failures := (runOutcomes op filterFn inv.toList).filter
              fun r => r.status = .rejected } := by
  cases hf : fetch with
  | error e =>
      rw [hf] at h
      simp [runMatching] at h
  | ok inv =>
      rw [hf] at h
      cases hc : buildAppNameFilter pattern with
      | error e => simp [runMatching, hc] at h
      | ok filterFn =>
          simp only [runMatching, hc] at h
          refine ⟨inv, filterFn, rfl, rfl, ?_, ?_⟩
          · simp [runMatching, hc]
          · exact (Except.ok.inj h).symm

/-! ## Claim theorems -/

/-- Claim C7: if the inventory fetch fails, the run fails with the
propagated error, produces no summary and dispatches no lifecycle
command; the fetch was attempted exactly once.  This holds for the start
run and the stop run alike. -/
theorem run_aborts_on_fetch_failure (exec : Executor)
    (pattern : Option String) (e : String)
    (h : exec.listApplications = .error e) :
    startMatching exec pattern = ⟨1, [], .error e⟩ ∧
    stopMatching exec pattern = ⟨1, [], .error e⟩ := by
  constructor
  · unfold startMatching runMatching
    rw [h]
  · unfold stopMatching runMatching
    rw [h]

/-- Witness for claim C7 at a concrete failing executor. -/
theorem run_aborts_on_fetch_failure_witness :
    startMatching execFetchFail none = ⟨1, [], .error "auth"⟩ ∧
    stopMatching execFetchFail none = ⟨1, [], .error "auth"⟩ :=
  run_aborts_on_fetch_failure execFetchFail none "auth" rfl

/-- Claim C9: the sequence of candidate ids passed to the lifecycle
operation is a deterministic function of the inventory and the pattern:
two executors returning the same inventory dispatch the same id sequence
under the same pattern, whatever their lifecycle commands do. -/
theorem dispatch_deterministic (e1 e2 : Executor) (pattern : Option String)
    (h : e1.listApplications = e2.listApplications) :
    (startMatching e1 pattern).dispatched =
      (startMatching e2 pattern).dispatched := by
  unfold startMatching runMatching
  rw [h]
  cases e2.listApplications with
  | error e => rfl
  | ok inv =>
      cases buildAppNameFilter pattern with
      | error e => rfl
      | ok filterFn => rfl

/-- Witness for claim C9: an all-failing and an all-succeeding executor
over the same inventory dispatch identically. -/
theorem dispatch_deterministic_witness :
    (startMatching execBD none).dispatched =
      (startMatching execAllOk none).dispatched :=
  dispatch_deterministic execBD execAllOk none rfl

/-- Claim C10: a completed run's matched count equals the number of
outcomes, and the outcomes are partitioned exactly: the counts add up,
the status decides the list, and no outcome is in both lists; for the
start run and the stop run alike. -/
theorem matched_partitions_outcomes (exec : Executor)
    (pattern : Option String) (s : Summary)
    (h : (startMatching exec pattern).result = .ok s ∨
      (stopMatching exec pattern).result = .ok s) :
    s.matched = s.successes.length + s.failures.length ∧
      (∀ o ∈ s.successes, o.status = .fulfilled) ∧
      (∀ o ∈ s.failures, o.status = .rejected) ∧
      ∀ o ∈ s.successes, o ∉ s.failures := by
  have main : ∀ (op : String → Except String String),
      (runMatching exec.listApplications op pattern).result = .ok s →
      s.matched = s.successes.length + s.failures.length ∧
        (∀ o ∈ s.successes, o.status = .fulfilled) ∧
        (∀ o ∈ s.failures, o.status = .rejected) ∧
        ∀ o ∈ s.successes, o ∉ s.failures := by
    intro op hop
    obtain ⟨inv, filterFn, -, -, -, rfl⟩ := runMatching_result_ok hop
    refine ⟨(length_filter_status _).symm, ?_, ?_, ?_⟩
    · intro o ho
      exact of_decide_eq_true (List.mem_filter.mp ho).2
    · intro o ho
      exact of_decide_eq_true (List.mem_filter.mp ho).2
    · intro o ho hf
      have h1 : o.status = .fulfilled :=
        of_decide_eq_true (List.mem_filter.mp ho).2
      have h2 : o.status = .rejected :=
        of_decide_eq_true (List.mem_filter.mp hf).2
      rw [h1] at h2
      exact Status.noConfusion h2
  rcases h with h | h
  · exact main exec.startAppById h
  · exact main exec.stopAppById h

/-- Witness for claim C10 at the partial-failure run. -/
theorem matched_partitions_outcomes_witness :
    summaryBD.matched = summaryBD.successes.length +
        summaryBD.failures.length ∧
      (∀ o ∈ summaryBD.successes, o.status = .fulfilled) ∧
      (∀ o ∈ summaryBD.failures, o.status = .rejected) ∧
      ∀ o ∈ summaryBD.successes, o ∉ summaryBD.failures :=
  matched_partitions_outcomes execBD none summaryBD (Or.inl rfl)

/-- Claim C8: for a completed start run there is a dispatch-ordered
outcome list (its ids are exactly the dispatched ids, in order) such that
the successes and the failures are its status-filtered sublists, each
preserving dispatch order. -/
theorem outcome_lists_preserve_dispatch_order (exec : Executor)
    (pattern : Option String) (s : Summary)
    (h : (startMatching exec pattern).result = .ok s) :
    ∃ results : List Outcome,
      results.map (fun o => o.id) =
        (startMatching exec pattern).dispatched ∧
      s.successes = results.filter (fun r => r.status = .fulfilled) ∧
      s.failures = results.filter (fun r => r.status = .rejected) ∧
      s.successes.Sublist results ∧ s.failures.Sublist results := by
  obtain ⟨inv, filterFn, -, -, hd, rfl⟩ := runMatching_result_ok h
  refine ⟨runOutcomes exec.startAppById filterFn inv.toList, ?_, rfl, rfl,
    List.filter_sublist _, List.filter_sublist _⟩
  show _ = (startMatching exec pattern).dispatched
  rw [show (startMatching exec pattern).dispatched =
    (runMatching exec.listApplications exec.startAppById pattern).dispatched
    from rfl, hd]
  unfold runOutcomes
  rw [List.map_map]
  exact List.map_congr_left fun c _ => dispatchOutcome_id _ _ _

/-- Witness for claim C8 at the partial-failure run. -/
theorem outcome_lists_preserve_dispatch_order_witness :
    ∃ results : List Outcome,
      results.map (fun o => o.id) =
        (startMatching execBD none).dispatched ∧
      summaryBD.successes =
        results.filter (fun r => r.status = .fulfilled) ∧
      summaryBD.failures =
        results.filter (fun r => r.status = .rejected) ∧
      summaryBD.successes.Sublist results ∧
      summaryBD.failures.Sublist results :=
  outcome_lists_preserve_dispatch_order execBD none summaryBD rfl

/-- Claim C6: once the fetch and the compilation succeed, the run always
completes with a summary, whatever the individual lifecycle commands do;
and over five candidates whose commands fail exactly for ids b and d, the
summary has five matched, three successes and failures for exactly b and
d, in dispatch order. -/
theorem lifecycle_failures_tolerated :
    (∀ (exec : Executor) (pattern : Option String) (inv : Inventory)
        (filterFn : App → Bool),
        exec.listApplications = .ok inv →
        buildAppNameFilter pattern = .ok filterFn →
        ∃ s, (startMatching exec pattern).result = .ok s) ∧
    (∀ (f : String → Except String String) (ra rc re eb ed : String),
        f "a" = .ok ra → f "b" = .error eb → f "c" = .ok rc →
        f "d" = .error ed → f "e" = .ok re →
        ∃ s, (startMatching ⟨.ok (.arr appsC6), f, f⟩ none).result = .ok s ∧
          s.matched = 5 ∧ s.successes.length = 3 ∧
          s.failures.map (fun o => o.id) = ["b", "d"]) := by
  constructor
  · intro exec pattern inv filterFn hf hc
    unfold startMatching runMatching
    rw [hf, hc]
    exact ⟨_, rfl⟩
  · intro f ra rc re eb ed ha hb hc hd he
    refine ⟨_, rfl, ?_, ?_, ?_⟩ <;>
      simp [startMatching, runMatching, runOutcomes, candidates, appsC6,
        Inventory.toList, truthyId, dispatchOutcome, ha, hb, hc, hd, he]

/-- Witness for claim C6 at concrete executors. -/
theorem lifecycle_failures_tolerated_witness :
    (∃ s, (startMatching execAllOk none).result = .ok s) ∧
    ∃ s, (startMatching ⟨.ok (.arr appsC6), opBD, opBD⟩ none).result =
        .ok s ∧
      s.matched = 5 ∧ s.successes.length = 3 ∧
      s.failures.map (fun o => o.id) = ["b", "d"] :=
  ⟨lifecycle_failures_tolerated.1 execAllOk none (.arr appsC6)
      (fun _ => true) rfl rfl,
   lifecycle_failures_tolerated.2 opBD "" "" "" "command failed"
      "command failed" rfl rfl rfl rfl rfl⟩

/-- Claim C2 counterexample: the pattern open-parenthesis-unclosed fails
compilation, yet the run against an executor with a healthy inventory
still performs the inventory fetch (one listApplications call, not
zero) before failing. -/
theorem compile_error_counterexample :
    compileFails (some "(unclosed") = true ∧
    (startMatching execEmptyOk (some "(unclosed")).fetchCalls = 1 ∧
    (startMatching execEmptyOk (some "(unclosed")).result =
      .error "Unterminated group" :=
  ⟨rfl, rfl, rfl⟩

/-- Claim C2 as amended: an invalid pattern makes the run fail with the
compilation error after the inventory fetch (exactly one
listApplications call) and before any lifecycle command (zero dispatch),
for the start run and the stop run alike. -/
theorem compile_error_after_fetch (exec : Executor)
    (pattern : Option String) (inv : Inventory) (e : String)
    (hf : exec.listApplications = .ok inv)
    (hc : buildAppNameFilter pattern = .error e) :
    startMatching exec pattern = ⟨1, [], .error e⟩ ∧
    stopMatching exec pattern = ⟨1, [], .error e⟩ := by
  constructor
  · unfold startMatching runMatching
    rw [hf, hc]
  · unfold stopMatching runMatching
    rw [hf, hc]

/-- Witness for claim C2's amended theorem at the invalid pattern. -/
theorem compile_error_after_fetch_witness :
    startMatching execEmptyOk (some "(unclosed") =
      ⟨1, [], .error "Unterminated group"⟩ ∧
    stopMatching execEmptyOk (some "(unclosed") =
      ⟨1, [], .error "Unterminated group"⟩ :=
  compile_error_after_fetch execEmptyOk (some "(unclosed") (.arr [])
    "Unterminated group" rfl rfl

/-- Candidate count under the constant-true filter: the records with a
truthy id are kept, the others are skipped. -/
theorem candidates_true_length (l : List App) :
    (candidates (fun _ => true) l).length +
      l.countP (fun a => (truthyId a).isNone) = l.length := by
  induction l with
  | nil => rfl
  | cons a t ih =>
      cases ht : truthyId a <;>
        simp [candidates, List.filterMap_cons, ht, List.countP_cons] at ih ⊢ <;>
        omega

/-- Claim C3 counterexample: a one-record inventory whose record has a
name but no id.  The specification's unusable count is zero, so the
claim predicts one match; the run matches zero records. -/
theorem null_pattern_matched_counterexample :
    (startMatching execNoId none).result = .ok ⟨1, 0, [], []⟩ ∧
    appsNoId.length - appsNoId.countP unusableSpec = 1 :=
  ⟨rfl, rfl⟩

/-- Claim C3 as amended: for a non-empty inventory and a null pattern the
run completes without error and its matched count is the inventory size
minus the number of records whose id is missing or empty; such records
are skipped even when they carry a name. -/
theorem null_pattern_matched_count (l : List App) (exec : Executor)
    (hf : exec.listApplications = .ok (.arr l)) (_hne : l ≠ []) :
    ∃ s, (startMatching exec none).result = .ok s ∧
      s.total = l.length ∧
      s.matched = l.length - l.countP (fun a => (truthyId a).isNone) := by
  unfold startMatching runMatching
  rw [hf]
  refine ⟨_, rfl, rfl, ?_⟩
  show (runOutcomes _ _ _).length = _
  unfold runOutcomes
  rw [List.length_map, show (Inventory.arr l).toList = l from rfl]
  have := candidates_true_length l
  omega

/-- Witness for claim C3's amended theorem at a five-record inventory. -/
theorem null_pattern_matched_count_witness :
    ∃ s, (startMatching execAllOk none).result = .ok s ∧
      s.total = appsC6.length ∧
      s.matched = appsC6.length -
        appsC6.countP (fun a => (truthyId a).isNone) :=
  null_pattern_matched_count appsC6 execAllOk rfl (by simp [appsC6])

/-- Claim C1 counterexample: a record carrying only an id.  Under the
specification's resolution chain (name, then id, then empty) the glob
pattern equal to that id matches the record; the source's matcher, which
falls back to applicationName instead of id, rejects it. -/
theorem name_resolution_counterexample :
    testPatternSpec (some "app1") appIdOnly = .ok true ∧
    testPattern (some "app1") appIdOnly = .ok false :=
  ⟨rfl, rfl⟩

/-- Claim C1 as amended: the compiled matcher tests the pattern against
the display name resolved as name, falling back to applicationName,
falling back to the empty string — the id is never consulted.  First
conjunct: records with equal resolved names match identically under any
successfully compiled matcher.  Second conjunct: for a non-empty pattern
the matcher is exactly the compiled expression tested against that
resolved name, so a record with no derivable name matches exactly when
the expression matches the empty string. -/
theorem matcher_resolves_name_applicationName :
    (∀ (pattern : Option String) (m : App → Bool) (a b : App),
        buildAppNameFilter pattern = .ok m →
        resolveNameCode a = resolveNameCode b → m a = m b) ∧
    (∀ (p : String) (m : App → Bool), p ≠ "" →
        buildAppNameFilter (some p) = .ok m →
        ∃ r, parseRegex
            (if looksLikeRegex p then p.data else globSource p) = .ok r ∧
          ∀ a, m a = rtest r (resolveNameCode a).data) := by
  constructor
  · intro pattern m a b hm h
    cases pattern with
    | none =>
        simp only [buildAppNameFilter, Except.ok.injEq] at hm
        rw [← hm]
    | some p =>
        by_cases hp : p = ""
        · rw [hp, show buildAppNameFilter (some "") =
            .ok (fun _ => true) from rfl] at hm
          rw [← Except.ok.inj hm]
        · simp only [buildAppNameFilter, if_neg hp] at hm
          cases hr : parseRegex (if looksLikeRegex p then p.data
              else globSource p) with
          | error e => rw [hr] at hm; simp [Except.map] at hm
          | ok r =>
              rw [hr] at hm
              simp only [Except.map, Except.ok.injEq] at hm
              rw [← hm]
              show rtest r (resolveNameCode a).data =
                rtest r (resolveNameCode b).data
              rw [h]
  · intro p m hp hm
    simp only [buildAppNameFilter, if_neg hp] at hm
    cases hr : parseRegex (if looksLikeRegex p then p.data
        else globSource p) with
    | error e => rw [hr] at hm; simp [Except.map] at hm
    | ok r =>
        rw [hr] at hm
        simp only [Except.map, Except.ok.injEq] at hm
        exact ⟨r, rfl, fun a => by rw [← hm]⟩

/-- Witness for claim C1's amended theorem: two records differing only in
id and applicationName-behind-name agree under the matcher of the glob
pattern x, and that matcher is the compiled caret-x-dollar expression
tested against the resolved name. -/
theorem matcher_resolves_name_applicationName_witness :
    matcherX ⟨some "1", some "nn", none⟩ =
      matcherX ⟨some "2", some "nn", some "zz"⟩ ∧
    ∃ r, parseRegex
        (if looksLikeRegex "x" then "x".data else globSource "x") = .ok r ∧
      ∀ a, matcherX a = rtest r (resolveNameCode a).data :=
  ⟨matcher_resolves_name_applicationName.1 (some "x") matcherX _ _ rfl rfl,
   matcher_resolves_name_applicationName.2 "x" matcherX (by decide) rfl⟩

/-- Claim C5: a pattern containing one of the regex-trigger characters is
classified regex-like and compiled exactly as written, with no anchoring
added; and the specification's example holds: the dot-star-dash-prod-
dollar pattern matches precisely the names ending in the five characters
dash-p-r-o-d. -/
theorem regex_like_compiled_directly :
    (∀ p : String, looksLikeRegex p = true →
        buildAppNameFilter (some p) = (parseRegex p.data).map
          (fun r => fun app => rtest r (resolveNameCode app).data)) ∧
    (∀ s : String, testPattern (some ".*-prod$") ⟨none, some s, none⟩ =
        .ok (List.isSuffixOf ['-', 'p', 'r', 'o', 'd'] s.data)) := by
  constructor
  · intro p hp
    have hne : ¬ p = "" := by
      rintro rfl
      simp [looksLikeRegex] at hp
    simp [buildAppNameFilter, if_neg hne, hp]
  · intro s
    have hres : resolveNameCode ⟨none, some s, none⟩ = s := by
      by_cases h : s = "" <;> simp [resolveNameCode, firstTruthy, h]
    have hbuild : buildAppNameFilter (some ".*-prod$") =
        .ok (fun app => rtest prodRegex (resolveNameCode app).data) := rfl
    rw [testPattern, hbuild]
    simp only [Except.map, Except.ok.injEq]
    rw [hres, Bool.eq_iff_iff, rtest_prodRegex,
      List.isSuffixOf_iff_suffix]

/-- Witness for claim C5: the direct-compilation equation at the
specification's example pattern, and the example evaluated on a name
ending in dash-prod. -/
theorem regex_like_compiled_directly_witness :
    buildAppNameFilter (some ".*-prod$") = (parseRegex ".*-prod$".data).map
      (fun r => fun app => rtest r (resolveNameCode app).data) ∧
    testPattern (some ".*-prod$") ⟨none, some "eapi-prod", none⟩ =
      .ok true :=
  ⟨regex_like_compiled_directly.1 ".*-prod$" rfl,
   (regex_like_compiled_directly.2 "eapi-prod").trans rfl⟩

/-- Claim C4, evaluating the source at the claim's inputs: because the
escape step never escapes the star, the backslash-star-to-dot-star
translation never fires; the glob pattern eapi-dash-star compiles to
caret-e-a-p-i-escaped-dash-star-dollar, in which the star quantifies the
escaped dash.  The claim's promised matches eapi-dev and eapi-prod are
rejected, while eapi and eapi-dash-dash are accepted. -/
theorem glob_star_translation_broken :
    testPattern (some "eapi-*") ⟨some "1", some "eapi-dev", none⟩ =
      .ok false ∧
    testPattern (some "eapi-*") ⟨some "1", some "eapi-prod", none⟩ =
      .ok false ∧
    testPattern (some "eapi-*") ⟨some "1", some "eapi", none⟩ = .ok true ∧
    testPattern (some "eapi-*") ⟨some "1", some "eapi--", none⟩ =
      .ok true ∧
    globSource "eapi-*" = "^eapi\\-*$".data :=
  ⟨rfl, rfl, rfl, rfl, rfl⟩

end Anypoint
